import Mathlib

/-!
Verification of the obs-ndi output plugin (`src/obs-ndi-output.cpp`).

The C source is shallowly embedded: machine integers become `Nat`/`Int` with
explicit 32-bit truncation where the source casts to `int`, the ring buffer of
frame descriptors becomes a `List`, heap pixel buffers become fresh `Nat`
identifiers handed out by an allocation counter, and every externally visible
action (allocation, free, send, semaphore post/wait, sleep, thread creation)
is recorded in an event trace returned next to the new state.
-/

namespace ObsNdi

/-- `MAX_BUFFERING_FRAMES` from `obs-ndi-output.cpp` line 27. -/
def MAX_BUFFERING_FRAMES : ℕ := 60

/-- `min_uint32` (lines 29-32). -/
def min_uint32 (a b : ℕ) : ℕ := if a < b then a else b

/-- `min_int` (lines 34-36). -/
def min_int (a b : ℤ) : ℤ := if a < b then a else b

/-- C conversion of a wider signed value to 32-bit `int`
(two's-complement wrap, the de-facto behavior of the target compilers). -/
def toInt32 (z : ℤ) : ℤ := (z + 2 ^ 31) % 2 ^ 32 - 2 ^ 31

/-- Write trace of `convert_nv12_to_uyvy` (lines 38-61): the ordered list of
(destination byte offset, byte value) pairs the routine stores through `_out`.
`input j` is the byte array of plane `j`; `in_linesize j` its row stride.
Per x-loop iteration `i` (at `x = 2*i`) the routine writes 4 bytes
`U, Y, V, Y`, reading `U`/`V` from the interleaved half-resolution chroma
plane 1 at row `y / 2` and `Y` from plane 0. -/
def convert_nv12_to_uyvy (input : ℕ → ℕ → ℕ) (in_linesize : ℕ → ℕ)
    (start_y end_y : ℕ) (out_linesize : ℕ) : List (ℕ × ℕ) :=
  let width := min_uint32 (in_linesize 0) out_linesize
  (List.range (end_y - start_y)).flatMap (fun r =>
    let y := start_y + r
    (List.range ((width + 1) / 2)).flatMap (fun i =>
      [(y * out_linesize + 4 * i,
          input 1 ((y / 2) * in_linesize 1 + 2 * i)),
       (y * out_linesize + 4 * i + 1,
          input 0 (y * in_linesize 0 + 2 * i)),
       (y * out_linesize + 4 * i + 2,
          input 1 ((y / 2) * in_linesize 1 + (2 * i + 1))),
       (y * out_linesize + 4 * i + 3,
          input 0 (y * in_linesize 0 + (2 * i + 1)))]))

/-- Write trace of `convert_i420_to_uyvy` (lines 63-86): same output layout,
but `U` and `V` come from two separate half-resolution planes 1 and 2,
advancing one byte per pixel pair. -/
def convert_i420_to_uyvy (input : ℕ → ℕ → ℕ) (in_linesize : ℕ → ℕ)
    (start_y end_y : ℕ) (out_linesize : ℕ) : List (ℕ × ℕ) :=
  let width := min_uint32 (in_linesize 0) out_linesize
  (List.range (end_y - start_y)).flatMap (fun r =>
    let y := start_y + r
    (List.range ((width + 1) / 2)).flatMap (fun i =>
      [(y * out_linesize + 4 * i,
          input 1 ((y / 2) * in_linesize 1 + i)),
       (y * out_linesize + 4 * i + 1,
          input 0 (y * in_linesize 0 + 2 * i)),
       (y * out_linesize + 4 * i + 2,
          input 2 ((y / 2) * in_linesize 2 + i)),
       (y * out_linesize + 4 * i + 3,
          input 0 (y * in_linesize 0 + (2 * i + 1)))]))

/-- Write trace of `convert_i444_to_uyvy` (lines 88-112): full-resolution
chroma planes 1 and 2 read at row `y`, skipping every other chroma sample
(`_U++; _U++`), i.e. reading offset `2*i`. -/
def convert_i444_to_uyvy (input : ℕ → ℕ → ℕ) (in_linesize : ℕ → ℕ)
    (start_y end_y : ℕ) (out_linesize : ℕ) : List (ℕ × ℕ) :=
  let width := min_uint32 (in_linesize 0) out_linesize
  (List.range (end_y - start_y)).flatMap (fun r =>
    let y := start_y + r
    (List.range ((width + 1) / 2)).flatMap (fun i =>
      [(y * out_linesize + 4 * i,
          input 1 (y * in_linesize 1 + 2 * i)),
       (y * out_linesize + 4 * i + 1,
          input 0 (y * in_linesize 0 + 2 * i)),
       (y * out_linesize + 4 * i + 2,
          input 2 (y * in_linesize 2 + 2 * i)),
       (y * out_linesize + 4 * i + 3,
          input 0 (y * in_linesize 0 + (2 * i + 1)))]))

/-- The frame-duration computation
`1000000000ULL / (frame_rate_N / frame_rate_D)` appearing verbatim in
`ndi_videosend_thread` (lines 167-168) and as `frame_time` in
`ndi_output_rawvideo` (lines 347-348). Both `/` are C integer divisions:
the rational frame rate `N/D` is truncated to an integer first. -/
def frame_duration (frame_rate_N frame_rate_D : ℕ) : ℕ :=
  1000000000 / (frame_rate_N / frame_rate_D)

/-- The `video_format` values handled by `ndi_output_start` (lines 200-221). -/
inductive video_format
  | NV12 | I420 | I444 | RGBA | BGRA | BGRX
  deriving DecidableEq, Repr

/-- The `NDIlib_FourCC_type_e` values the plugin uses. `unset` stands for the
zero-initialized value a freshly `bzalloc`ed output carries before `start`. -/
inductive FourCC
  | UYVY | RGBA | BGRA | BGRX | unset
  deriving DecidableEq, Repr

/-- The fields of `obs_video_info` the plugin reads. -/
structure obs_video_info where
  output_width : ℕ
  output_height : ℕ
  fps_num : ℕ
  fps_den : ℕ
  output_format : video_format
  deriving DecidableEq, Repr

/-- The fields of `obs_audio_info` the plugin reads. -/
structure obs_audio_info where
  samples_per_sec : ℕ
  speakers : ℕ
  deriving DecidableEq, Repr

/-- The fields of `NDIlib_video_frame_v2_t` the plugin sets (lines 304-345).
`p_data` is the pixel-buffer identifier (`none` = null pointer, i.e. a filler
frame). `picture_aspect_ratio` (a float irrelevant to every claim) is not
modelled, and `frame_format_type` is the constant `progressive`.
`timecode` is `(int64_t)(frame->timestamp / 100.0)`; the source divides in
`double`, modelled as integer division (exact for timestamps below 2^53). -/
structure NDIlib_video_frame_v2 where
  xres : ℕ
  yres : ℕ
  frame_rate_N : ℕ
  frame_rate_D : ℕ
  timecode : ℕ
  FourCC : FourCC
  p_data : Option ℕ
  line_stride_in_bytes : ℕ
  deriving DecidableEq, Repr

/-- The fields of the host's `struct video_data` the state model needs:
the timestamp and `linesize[0]` (the plane contents only matter to the
conversion-trace functions above). -/
structure video_data where
  timestamp : ℕ
  linesize0 : ℕ
  deriving DecidableEq, Repr

/-- The fields of the host's `struct audio_data` the plugin reads. -/
structure audio_data where
  timestamp : ℕ
  frames : ℕ
  deriving DecidableEq, Repr

/-- Externally visible actions, recorded in order of occurrence.
`alloc`/`release` are `bmalloc`/`bfree` of pixel or sample buffers, identified
by the allocation counter (`bfree` on a null pointer is a no-op in libobs and
is not recorded). `convert` is a pixel-format conversion into `conv_buffer`.
`sem_post`/`sem_wait` act on `video_send_sem`, `sleep_to` is
`os_sleepto_ns`, `thread_create` is the `pthread_create` of the delivery
thread. -/
inductive Event
  | alloc (id size : ℕ)
  | release (id : ℕ)
  | convert
  | send_video (f : NDIlib_video_frame_v2)
  | send_audio (timecode : ℕ)
  | sem_post
  | sem_wait
  | sleep_to (t : ℕ)
  | thread_create
  deriving DecidableEq, Repr

/-- `struct ndi_output` (lines 114-134). The `circlebuf video_frames` of
serialized `NDIlib_video_frame_v2_t` records becomes a list of descriptors;
`conv_buffer`/`ndi_sender` record whether those handles are currently
non-null; `next_buf` is the allocation counter standing in for `bmalloc`
returning fresh pointers; `sem_count` is the value of `video_send_sem`;
`thread_running` tracks `video_send_thread` between `start` and the join in
`stop`. -/
structure ndi_output where
  started : Bool
  frame_format : FourCC
  video_info : obs_video_info
  audio_info : obs_audio_info
  conv_linesize : ℕ
  conv_buffer : Bool
  video_frames : List NDIlib_video_frame_v2
  sem_count : ℕ
  thread_running : Bool
  ndi_sender : Bool
  last_audio_timestamp : ℕ
  next_buf : ℕ
  deriving DecidableEq, Repr

/-- The descriptor `ndi_output_rawvideo` builds for an admitted frame
(lines 304-345): metadata from the negotiated video info, pixel data the
freshly `bmalloc`ed copy (`p_data = video_data`, line 345), stride the
conversion stride for UYVY and the host stride otherwise. -/
def admitted_frame (o : ndi_output) (frame : video_data) : NDIlib_video_frame_v2 :=
  { xres := o.video_info.output_width
    yres := o.video_info.output_height
    frame_rate_N := o.video_info.fps_num
    frame_rate_D := o.video_info.fps_den
    timecode := frame.timestamp / 100
    FourCC := o.frame_format
    p_data := some o.next_buf
    line_stride_in_bytes :=
      if o.frame_format = FourCC.UYVY then o.conv_linesize else frame.linesize0 }

/-- The drift-correction target (lines 347-353): `audio_buffering` is the
clamped difference of the incoming video timestamp and
`last_audio_timestamp`, and `required_delay_frames` divides it by
`frame_time` after C truncates both operands to 32-bit `int`
(`(int)audio_buffering / (int)frame_time`); C integer division rounds
toward zero (`Int.tdiv`). -/
def required_delay_frames (o : ndi_output) (frame : video_data) : ℤ :=
  let frame_time := frame_duration o.video_info.fps_num o.video_info.fps_den
  let audio_buffering : ℤ :=
    max ((frame.timestamp : ℤ) - (o.last_audio_timestamp : ℤ)) 0
  Int.tdiv (toInt32 audio_buffering) (toInt32 (frame_time : ℤ))

/-- `ndi_output_rawvideo` (lines 290-382). Returns the updated output state
and the event trace of the call. Dropped calls (not started, or the queue
already holding `MAX_BUFFERING_FRAMES` descriptors) return the state
unchanged with an empty trace. Otherwise: the frame is converted when the
negotiated format is UYVY, copied into a fresh buffer, drift correction pops
queued frames (front first, one `sem_wait` then `bfree` per pop) when the
queue is longer than `required_delay_frames`, or pushes filler copies
(null `p_data`, one `sem_post` each) when it is shorter, and finally the new
descriptor is pushed with one `sem_post`. -/
def ndi_output_rawvideo (o : ndi_output) (frame : video_data) :
    ndi_output × List Event :=
  if o.started = false then (o, []) else
  let frames_waiting := o.video_frames.length
  if MAX_BUFFERING_FRAMES ≤ frames_waiting then (o, []) else
  let video_frame := admitted_frame o frame
  let conv_events := if video_frame.FourCC = FourCC.UYVY then [Event.convert] else []
  let video_bytes := video_frame.line_stride_in_bytes * video_frame.yres
  let alloc_events := [Event.alloc o.next_buf video_bytes]
  let required := required_delay_frames o frame
  let current_delay_frames := o.video_frames.length
  let add_delay_frames : ℤ := required - (current_delay_frames : ℤ)
  if add_delay_frames < 0 then
    let frames_to_pop :=
      (min_int (Int.natAbs add_delay_frames : ℤ) (current_delay_frames : ℤ)).toNat
    let pop_events := (o.video_frames.take frames_to_pop).flatMap (fun f =>
      Event.sem_wait ::
        (match f.p_data with | some b => [Event.release b] | none => []))
    ({ o with
        video_frames := o.video_frames.drop frames_to_pop ++ [video_frame]
        sem_count := o.sem_count - frames_to_pop + 1
        next_buf := o.next_buf + 1 },
      conv_events ++ alloc_events ++ pop_events ++ [Event.sem_post])
  else if 0 < add_delay_frames then
    let filler_frame := { video_frame with p_data := none }
    ({ o with
        video_frames := o.video_frames
          ++ List.replicate add_delay_frames.toNat filler_frame ++ [video_frame]
        sem_count := o.sem_count + add_delay_frames.toNat + 1
        next_buf := o.next_buf + 1 },
      conv_events ++ alloc_events
        ++ List.replicate add_delay_frames.toNat Event.sem_post ++ [Event.sem_post])
  else
    ({ o with
        video_frames := o.video_frames ++ [video_frame]
        sem_count := o.sem_count + 1
        next_buf := o.next_buf + 1 },
      conv_events ++ alloc_events ++ [Event.sem_post])

/-- `ndi_output_rawaudio` (lines 384-411): when started, allocate a sample
buffer, copy the channels into it, send it synchronously, free it, and update
`last_audio_timestamp` to the frame's timestamp. -/
def ndi_output_rawaudio (o : ndi_output) (frame : audio_data) :
    ndi_output × List Event :=
  if o.started = false then (o, []) else
  let no_channels := o.audio_info.speakers
  let channel_stride_in_bytes := frame.frames * 4
  let data_size := no_channels * channel_stride_in_bytes
  ({ o with
      last_audio_timestamp := frame.timestamp
      next_buf := o.next_buf + 1 },
    [Event.alloc o.next_buf data_size,
     Event.send_audio (frame.timestamp / 100),
     Event.release o.next_buf])

/-- One pass of the `ndi_videosend_thread` loop body (lines 158-178) in the
RUNNING state: with the queue empty the thread is blocked in `os_sem_wait`
and takes no step; otherwise it pops the front descriptor, computes the next
absolute deadline, sends the frame and frees its buffer when `p_data` is
non-null (a filler is neither sent nor freed), and sleeps to the deadline. -/
def ndi_videosend_iter (o : ndi_output) (now : ℕ) : ndi_output × List Event :=
  match o.video_frames with
  | [] => (o, [])
  | video_frame :: rest =>
    let fd := frame_duration video_frame.frame_rate_N video_frame.frame_rate_D
    let next_frame := now + fd
    let send_events :=
      match video_frame.p_data with
      | some b => [Event.send_video video_frame, Event.release b]
      | none => []
    ({ o with video_frames := rest, sem_count := o.sem_count - 1 },
      send_events ++ [Event.sleep_to next_frame])

/-- The drain loop at the end of `ndi_videosend_thread` (lines 180-186):
pop every remaining descriptor and `bfree` its pixel buffer (a no-op for the
null `p_data` of fillers), sending none of them. -/
def ndi_videosend_flush (queue : List NDIlib_video_frame_v2) : List Event :=
  queue.flatMap (fun f =>
    match f.p_data with | some b => [Event.release b] | none => [])

/-- `ndi_output_stop` (lines 249-262) together with the delivery-thread
shutdown it triggers and joins: the started flag is cleared, the stop event
is signalled and one wake-up `sem_post` issued, the joined thread drains the
queue (releasing every queued pixel buffer, sending nothing), and the sender
handle and conversion buffer are destroyed. -/
def ndi_output_stop (o : ndi_output) : ndi_output × List Event :=
  ({ o with
      started := false
      video_frames := []
      sem_count := 0
      thread_running := false
      ndi_sender := false
      conv_buffer := false },
    Event.sem_post :: ndi_videosend_flush o.video_frames)

/-- `ndi_output_start` (lines 191-247). The host-filled `obs_get_video_info`
/ `obs_get_audio_info` results and the outcomes of the two fallible external
calls (`NDIlib_send_create`, `obs_output_begin_data_capture`) are parameters.
The old sender handle and conversion buffer are destroyed first, the frame
format and conversion buffer are negotiated from the video format, then the
sender is created; only when both external calls succeed is the delivery
thread launched. The call returns the stored `started` flag. -/
def ndi_output_start (o : ndi_output) (vinfo : obs_video_info)
    (ainfo : obs_audio_info) (send_create_ok begin_capture_ok : Bool) :
    ndi_output × Bool × List Event :=
  let o1 := { o with
    video_info := vinfo
    audio_info := ainfo
    ndi_sender := false
    conv_buffer := false }
  let o2 :=
    match vinfo.output_format with
    | .NV12 | .I420 | .I444 =>
      { o1 with
          frame_format := FourCC.UYVY
          conv_linesize := vinfo.output_width * 2
          conv_buffer := true }
    | .RGBA => { o1 with frame_format := FourCC.RGBA }
    | .BGRA => { o1 with frame_format := FourCC.BGRA }
    | .BGRX => { o1 with frame_format := FourCC.BGRX }
  if send_create_ok then
    let o3 := { o2 with ndi_sender := true, started := begin_capture_ok }
    if o3.started then
      ({ o3 with thread_running := true }, o3.started, [Event.thread_create])
    else
      (o3, o3.started, [])
  else
    ({ o2 with ndi_sender := false }, o2.started, [])

/-- `ndi_output_create` (lines 270-283): the instance is `bzalloc`ed (all
fields zero / null / false; the zero `video_format` value is immaterial and
written `NV12`), the queue, semaphore and stop event are initialized empty. -/
def ndi_output_create : ndi_output :=
  { started := false
    frame_format := FourCC.unset
    video_info := ⟨0, 0, 0, 0, video_format.NV12⟩
    audio_info := ⟨0, 0⟩
    conv_linesize := 0
    conv_buffer := false
    video_frames := []
    sem_count := 0
    thread_running := false
    ndi_sender := false
    last_audio_timestamp := 0
    next_buf := 0 }

/-- The host-driven operations that can hit a running output between `start`
and `stop`: the two per-frame entry points on the capture thread and one
iteration of the delivery thread. -/
inductive Op
  | raw_video (frame : video_data)
  | raw_audio (frame : audio_data)
  | deliver (now : ℕ)
  deriving DecidableEq, Repr

/-- Dispatch one operation. -/
def run_op (o : ndi_output) : Op → ndi_output × List Event
  | .raw_video f => ndi_output_rawvideo o f
  | .raw_audio f => ndi_output_rawaudio o f
  | .deliver now => ndi_videosend_iter o now

/-- Run a sequence of operations, concatenating the event traces. -/
def run_ops (o : ndi_output) : List Op → ndi_output × List Event
  | [] => (o, [])
  | op :: rest =>
    let r := run_op o op
    let r' := run_ops r.1 rest
    (r'.1, r.2 ++ r'.2)

/-- Identifiers of the buffers allocated in a trace, in order. -/
def alloc_ids (evs : List Event) : List ℕ :=
  evs.filterMap (fun e => match e with | .alloc i _ => some i | _ => none)

/-- Identifiers of the buffers freed in a trace, in order. -/
def release_ids (evs : List Event) : List ℕ :=
  evs.filterMap (fun e => match e with | .release i => some i | _ => none)

/-- Whether an event hands a video frame to the sink. -/
def is_video_send (e : Event) : Bool :=
  match e with | .send_video _ => true | _ => false

/-- The pixel buffers currently referenced by queued descriptors. -/
def queue_bufs (o : ndi_output) : List ℕ :=
  o.video_frames.filterMap (fun f => f.p_data)

/-- Buffer accounting relating a state to the trace that produced it: every
allocated buffer is either already released or still referenced by a queued
descriptor (as multisets), allocation identifiers are pairwise distinct, and
all of them are below the allocation counter. -/
def BufInv (o : ndi_output) (evs : List Event) : Prop :=
  ((alloc_ids evs : Multiset ℕ)
      = (release_ids evs : Multiset ℕ) + (queue_bufs o : Multiset ℕ)) ∧
  (alloc_ids evs).Nodup ∧
  ∀ i ∈ alloc_ids evs, i < o.next_buf

/-- A concrete output as left by a successful `start` negotiated at 1280x720,
30/1 fps, RGBA passthrough (no conversion buffer needed), used for concrete
instantiations. -/
def started_state : ndi_output :=
  { started := true
    frame_format := FourCC.RGBA
    video_info := ⟨1280, 720, 30, 1, video_format.RGBA⟩
    audio_info := ⟨48000, 2⟩
    conv_linesize := 0
    conv_buffer := false
    video_frames := []
    sem_count := 0
    thread_running := true
    ndi_sender := true
    last_audio_timestamp := 0
    next_buf := 0 }

/-- A concrete queued frame descriptor. -/
def sample_frame : NDIlib_video_frame_v2 :=
  { xres := 1280
    yres := 720
    frame_rate_N := 30
    frame_rate_D := 1
    timecode := 0
    FourCC := FourCC.RGBA
    p_data := some 0
    line_stride_in_bytes := 5120 }

/-- `started_state` with the queue at the `MAX_BUFFERING_FRAMES` capacity. -/
def full_state : ndi_output :=
  { started_state with
      video_frames := List.replicate 60 sample_frame
      sem_count := 60
      next_buf := 60 }

/-- A concrete operation script: audio, two video frames (the second
inserting fillers), one delivery-thread iteration. -/
def c8_ops : List Op :=
  [Op.raw_audio ⟨0, 1024⟩, Op.raw_video ⟨0, 5120⟩,
   Op.raw_video ⟨66666666, 5120⟩, Op.deliver 100]

/-- Length of a `flatMap` whose blocks all have the same length. -/
theorem length_flatMap_const {α β : Type} (l : List α) (f : α → List β) (c : ℕ)
    (h : ∀ a ∈ l, (f a).length = c) : (l.flatMap f).length = l.length * c := by
  induction l with
  | nil => simp
  | cons x xs ih =>
    rw [List.flatMap_cons, List.length_append, h x (List.mem_cons_self x xs),
      ih fun a ha => h a (List.mem_cons_of_mem x ha), List.length_cons]
    ring

/-- Length of the nested row/pair loop shared by the three conversion
routines: `n` rows of `k` pair-iterations writing 4 bytes each. -/
theorem length_row_pair_loop (n k : ℕ) (g : ℕ → ℕ → List (ℕ × ℕ))
    (h : ∀ r i, (g r i).length = 4) :
    ((List.range n).flatMap (fun r => (List.range k).flatMap (g r))).length
      = n * (4 * k) := by
  have h1 : ∀ r ∈ List.range n, ((List.range k).flatMap (g r)).length = 4 * k := by
    intro r _
    rw [length_flatMap_const (List.range k) (g r) 4 fun i _ => h r i,
      List.length_range]
    ring
  rw [length_flatMap_const (List.range n) _ (4 * k) h1, List.length_range]

/-- Destination offsets of the nested row/pair loop: all four bytes of pair
`i` in row `s + r` lie in `[s*out, e*out)` as soon as one row's writes,
`4 * k` bytes, fit in the row stride `out`. -/
theorem row_pair_loop_bounds (g0 g1 g2 g3 : ℕ → ℕ → ℕ) (s e out k : ℕ)
    (h4 : 4 * k ≤ out) :
    ∀ p ∈ (List.range (e - s)).flatMap (fun r =>
        (List.range k).flatMap (fun i =>
          [((s + r) * out + 4 * i, g0 r i),
           ((s + r) * out + 4 * i + 1, g1 r i),
           ((s + r) * out + 4 * i + 2, g2 r i),
           ((s + r) * out + 4 * i + 3, g3 r i)])),
      s * out ≤ p.1 ∧ p.1 < e * out := by
  intro p hp
  simp only [List.mem_flatMap, List.mem_range, List.mem_cons,
    List.not_mem_nil, or_false] at hp
  obtain ⟨r, hr, i, hi, hp⟩ := hp
  have key : ∀ j : ℕ, j ≤ 3 →
      s * out ≤ (s + r) * out + 4 * i + j ∧
      (s + r) * out + 4 * i + j < e * out := by
    intro j hj
    have h0 : s * out ≤ (s + r) * out :=
      Nat.mul_le_mul_right _ (Nat.le_add_right _ _)
    have h1 : 4 * i + j < out := by omega
    have h2 : (s + r + 1) * out ≤ e * out :=
      Nat.mul_le_mul_right _ (by omega)
    have h3 : (s + r + 1) * out = (s + r) * out + out := by ring
    omega
  rcases hp with hp | hp | hp | hp <;> rw [hp] <;>
    first
      | exact key 0 (by omega)
      | exact key 1 (by omega)
      | exact key 2 (by omega)
      | exact key 3 (by omega)

/-- C5 counterexample: with a luma stride of 5 and an ample destination
stride, one converted row is 12 written bytes (`4 * ceil(5/2)`), not the
`4 * floor(width/2) = 8` the claim states; and with luma stride 4 equal to
the destination stride 4, converting row range `[0, 1)` writes a byte at
offset ≥ `1 * out_linesize`, outside the claimed region. -/
theorem c5_counterexample :
    (convert_nv12_to_uyvy (fun _ _ => 0) (fun _ => 5) 0 1 100).length = 12 ∧
    (12 : ℕ) ≠ 4 * (5 / 2) ∧
    (∃ p ∈ convert_nv12_to_uyvy (fun _ _ => 0) (fun _ => 4) 0 1 4,
      ¬ p.1 < 1 * 4) := by
  refine ⟨by decide, by decide, by decide⟩

/-- C5 amended: each of the three conversion routines writes exactly
`4 * ceil(width/2)` bytes per row — an odd `width` still processes a final
partial pair — for `end_y - start_y` rows, where `width` is the minimum of
the source luma row stride and the destination row stride (no rounding to
even); and every written byte lies in
`[start_y*out_linesize, end_y*out_linesize)` provided one row's output,
`4 * ceil(width/2)` bytes, fits in `out_linesize` (as in the plugin's own
use, where `out_linesize = 2 * width`). -/
theorem c5_amended (input : ℕ → ℕ → ℕ) (in_linesize : ℕ → ℕ)
    (start_y end_y out_linesize : ℕ)
    (h4 : 4 * ((min_uint32 (in_linesize 0) out_linesize + 1) / 2)
        ≤ out_linesize) :
    ∀ conv ∈ [convert_nv12_to_uyvy, convert_i420_to_uyvy,
        convert_i444_to_uyvy],
      (conv input in_linesize start_y end_y out_linesize).length
        = (end_y - start_y)
            * (4 * ((min_uint32 (in_linesize 0) out_linesize + 1) / 2)) ∧
      ∀ p ∈ conv input in_linesize start_y end_y out_linesize,
        start_y * out_linesize ≤ p.1 ∧ p.1 < end_y * out_linesize := by
  intro conv hconv
  simp only [List.mem_cons, List.not_mem_nil, or_false] at hconv
  rcases hconv with h | h | h <;> subst h <;>
    refine ⟨?_, ?_⟩ <;>
    simp only [convert_nv12_to_uyvy, convert_i420_to_uyvy,
      convert_i444_to_uyvy] <;>
    first
      | exact length_row_pair_loop _ _ _ fun r i => rfl
      | exact row_pair_loop_bounds _ _ _ _ _ _ _ _ h4

/-- Witness for `c5_amended`: a 4-byte luma stride into an 8-byte
destination stride, two rows. -/
theorem c5_witness :
    (convert_i420_to_uyvy (fun _ _ => 0) (fun _ => 4) 0 2 8).length
      = (2 - 0) * (4 * ((min_uint32 4 8 + 1) / 2)) :=
  (c5_amended (fun _ _ => 0) (fun _ => 4) 0 2 8 (by decide)
    convert_i420_to_uyvy (by simp)).1

/-- C1 counterexample: from a started output with an empty queue, no audio
received and frame rate 30/1 (frame_time 33,333,333 ns), a single raw-video
call with timestamp 62 * 33,333,333 ns computes `required_delay_frames = 62`
and pushes 62 fillers plus the real frame: the queue ends at 63 > 60
descriptors. Filler insertion is not capacity-checked. -/
theorem c1_counterexample :
    (ndi_output_rawvideo started_state ⟨2066666646, 5120⟩).1.video_frames.length
        = 63 ∧
    ¬ ((ndi_output_rawvideo started_state
          ⟨2066666646, 5120⟩).1.video_frames.length ≤ MAX_BUFFERING_FRAMES) := by
  refine ⟨by decide, by decide⟩

/-- C1 amended: an incoming frame that finds the queue at or above 60 is
dropped at admission with the queue unchanged, and a call that inserts no
fillers leaves at most 60 queued frames; but filler insertion during drift
correction is not capacity-checked, so after any raw-video call the queue
length is only bounded by
`max (previous length) (max 60 (required_delay_frames + 1))`, which filler
insertion can push past 60. -/
theorem c1_amended (o : ndi_output) (frame : video_data) :
    (MAX_BUFFERING_FRAMES ≤ o.video_frames.length →
      (ndi_output_rawvideo o frame).1.video_frames = o.video_frames) ∧
    (ndi_output_rawvideo o frame).1.video_frames.length
      ≤ max o.video_frames.length
          (max MAX_BUFFERING_FRAMES
            ((required_delay_frames o frame).toNat + 1)) := by
  simp only [ndi_output_rawvideo]
  by_cases h1 : o.started = false
  · rw [if_pos h1]
    exact ⟨fun _ => rfl, le_max_left _ _⟩
  · rw [if_neg h1]
    by_cases h2 : MAX_BUFFERING_FRAMES ≤ o.video_frames.length
    · rw [if_pos h2]
      exact ⟨fun _ => rfl, le_max_left _ _⟩
    · rw [if_neg h2]
      refine ⟨fun h => absurd h h2, ?_⟩
      simp only [MAX_BUFFERING_FRAMES, not_le] at h2
      by_cases h3 : required_delay_frames o frame
          - (o.video_frames.length : ℤ) < 0
      · rw [if_pos h3]
        simp only [MAX_BUFFERING_FRAMES, List.length_append, List.length_drop,
          List.length_cons, List.length_nil]
        omega
      · rw [if_neg h3]
        by_cases h4 : 0 < required_delay_frames o frame
            - (o.video_frames.length : ℤ)
        · rw [if_pos h4]
          simp only [MAX_BUFFERING_FRAMES, List.length_append,
            List.length_replicate, List.length_cons, List.length_nil]
          omega
        · rw [if_neg h4]
          simp only [MAX_BUFFERING_FRAMES, List.length_append,
            List.length_cons, List.length_nil]
          omega

/-- Witness for `c1_amended`: a call on a full queue leaves it unchanged. -/
theorem c1_witness :
    (ndi_output_rawvideo full_state ⟨0, 5120⟩).1.video_frames
      = full_state.video_frames :=
  (c1_amended full_state ⟨0, 5120⟩).1 (by decide)

/-- C3 counterexample: the source divides
`(int)audio_buffering / (int)frame_time` (line 353), truncating
`audio_buffering` to 32-bit `int` first. From a started output with
`last_audio_timestamp = 0` (no audio yet) and frame rate 30/1, a video
timestamp of 2^31 ns (≈ 2.15 s) makes `audio_buffering = 2^31` wrap to
`-2^31`, so the code computes `required_delay_frames = -64` where the claim
predicts `2^31 / 33,333,333 = 64`. -/
theorem c3_counterexample :
    required_delay_frames started_state ⟨2147483648, 5120⟩ = -64 ∧
    max ((2147483648 : ℤ) - (0 : ℤ)) 0
        / ((frame_duration started_state.video_info.fps_num
            started_state.video_info.fps_den : ℕ) : ℤ) = 64 ∧
    (-64 : ℤ) ≠ 64 := by
  refine ⟨by decide, by decide, by decide⟩

/-- C3 amended: for every admitted video frame with timestamp `t`, last
audio timestamp `a` and nominal frame duration `d` (positive, as computed by
the code), provided the clamped difference `max(0, t − a)` is below 2^31 the
Sync/Pacing Controller computes `audio_buffering = max(0, t − a)` and
`required_delay_frames = audio_buffering / d` by integer division (both
operands are truncated to 32-bit `int` before the division, which is why the
2^31 bound is needed); the result is then compared against the current queue
length. -/
theorem c3_amended (o : ndi_output) (frame : video_data)
    (hstart : o.started = true)
    (hroom : o.video_frames.length < MAX_BUFFERING_FRAMES)
    (hbuf : (frame.timestamp : ℤ) - (o.last_audio_timestamp : ℤ) < 2 ^ 31)
    (hfd : 0 < frame_duration o.video_info.fps_num o.video_info.fps_den) :
    required_delay_frames o frame
      = max ((frame.timestamp : ℤ) - (o.last_audio_timestamp : ℤ)) 0
          / ((frame_duration o.video_info.fps_num o.video_info.fps_den : ℕ) : ℤ) := by
  simp only [required_delay_frames]
  have hdle : frame_duration o.video_info.fps_num o.video_info.fps_den
      ≤ 1000000000 := Nat.div_le_self _ _
  have hm0 : (0 : ℤ)
      ≤ max ((frame.timestamp : ℤ) - (o.last_audio_timestamp : ℤ)) 0 :=
    le_max_right _ _
  have hm1 : max ((frame.timestamp : ℤ) - (o.last_audio_timestamp : ℤ)) 0
      < 2 ^ 31 := max_lt hbuf (by norm_num)
  have h1 : toInt32 (max ((frame.timestamp : ℤ)
      - (o.last_audio_timestamp : ℤ)) 0)
      = max ((frame.timestamp : ℤ) - (o.last_audio_timestamp : ℤ)) 0 := by
    unfold toInt32
    omega
  have h2 : toInt32 ((frame_duration o.video_info.fps_num
      o.video_info.fps_den : ℕ) : ℤ)
      = ((frame_duration o.video_info.fps_num o.video_info.fps_den : ℕ) : ℤ) := by
    unfold toInt32
    omega
  rw [h1, h2, Int.tdiv_eq_ediv hm0 (by positivity)]

/-- Witness for `c3_amended`: one frame interval of buffering at 30/1 fps
gives `required_delay_frames = 1`. -/
theorem c3_witness :
    required_delay_frames started_state ⟨33333333, 5120⟩
      = max ((33333333 : ℤ) - ((started_state.last_audio_timestamp : ℕ) : ℤ)) 0
          / ((frame_duration started_state.video_info.fps_num
              started_state.video_info.fps_den : ℕ) : ℤ) :=
  c3_amended started_state ⟨33333333, 5120⟩ rfl (by decide) (by decide) (by decide)

/-- C6: when `required_delay_frames` equals the current queue length, drift
correction is a no-op: no filler is inserted, no queued frame is popped
(no semaphore wait) or released, and exactly the one new descriptor is
appended to the queue, paired with exactly one post of the counting
semaphore. -/
theorem c6_no_drift (o : ndi_output) (frame : video_data)
    (hstart : o.started = true)
    (hroom : o.video_frames.length < MAX_BUFFERING_FRAMES)
    (heq : required_delay_frames o frame = (o.video_frames.length : ℤ)) :
    (ndi_output_rawvideo o frame).1.video_frames
        = o.video_frames ++ [admitted_frame o frame] ∧
    (ndi_output_rawvideo o frame).2.count Event.sem_post = 1 ∧
    (ndi_output_rawvideo o frame).2.count Event.sem_wait = 0 ∧
    release_ids (ndi_output_rawvideo o frame).2 = [] := by
  simp only [ndi_output_rawvideo, heq, sub_self, lt_irrefl, if_false,
    hstart, Nat.not_le.mpr hroom]
  by_cases hf : o.frame_format = FourCC.UYVY <;>
    simp [hf, admitted_frame, release_ids, List.count_cons]

/-- Witness for `c6_no_drift`: audio and video at the same timestamp on an
empty queue enqueue exactly one frame. -/
theorem c6_witness :
    (ndi_output_rawvideo started_state ⟨0, 5120⟩).1.video_frames
      = started_state.video_frames ++ [admitted_frame started_state ⟨0, 5120⟩] :=
  (c6_no_drift started_state ⟨0, 5120⟩ rfl (by decide) (by decide)).1

/-- C2 counterexample: the source computes
`1000000000ULL / (frame_rate_N / frame_rate_D)` with C integer division, so
for frame rate 30000/1001 the inner quotient truncates to 29 and the frame
duration comes out as 34,482,758 ns, not the `1e9 * 1001 / 30000`
(≈ 33,366,667 ns) the claim states. -/
theorem c2_counterexample :
    frame_duration 30000 1001 = 34482758 ∧
    1000000000 * 1001 / 30000 = 33366666 ∧
    frame_duration 30000 1001 ≠ 1000000000 * 1001 / 30000 := by
  refine ⟨by decide, by decide, by decide⟩

/-- C2 amended: the Delivery Thread computes
`frame_duration = 1e9 / (frame_rate_N / frame_rate_D)` with integer division
at each step; this equals `1e9 * D / N` exactly when `D` divides `N` (in
particular for integer frame rates), and for 30000/1001 it equals
1e9 / 29 = 34,482,758 ns instead of ≈ 33,366,667 ns. -/
theorem c2_amended (N D : ℕ) (hD : 0 < D) (hdvd : D ∣ N) :
    frame_duration N D = 1000000000 * D / N := by
  obtain ⟨k, rfl⟩ := hdvd
  rw [frame_duration, Nat.mul_div_cancel_left k hD, mul_comm 1000000000 D,
    Nat.mul_div_mul_left 1000000000 k hD]

/-- Witness for `c2_amended` at the integer frame rate 30/1. -/
theorem c2_witness : frame_duration 30 1 = 1000000000 * 1 / 30 :=
  c2_amended 30 1 (by decide) (by decide)

/-- C4: a raw-video call that finds the queue already holding
`MAX_BUFFERING_FRAMES` (60) or more descriptors returns with the state
unchanged and an empty event trace: no conversion, no allocation, no
enqueue, no semaphore post. -/
theorem c4_full_queue_drop (o : ndi_output) (frame : video_data)
    (h : MAX_BUFFERING_FRAMES ≤ o.video_frames.length) :
    ndi_output_rawvideo o frame = (o, []) := by
  unfold ndi_output_rawvideo
  rcases hs : o.started with _ | _
  · simp [hs]
  · simp [hs, h]

/-- Witness for `c4_full_queue_drop` on a full queue. -/
theorem c4_witness :
    ndi_output_rawvideo full_state ⟨0, 5120⟩ = (full_state, []) :=
  c4_full_queue_drop full_state ⟨0, 5120⟩ (by decide)

/-- C10: while the started flag is false, both per-frame entry points return
with the state unchanged and an empty event trace: nothing sent, nothing
allocated, queue, semaphore and `last_audio_timestamp` untouched. -/
theorem c10_not_started (o : ndi_output) (vframe : video_data)
    (aframe : audio_data) (h : o.started = false) :
    ndi_output_rawvideo o vframe = (o, []) ∧
    ndi_output_rawaudio o aframe = (o, []) := by
  constructor
  · unfold ndi_output_rawvideo
    simp [h]
  · unfold ndi_output_rawaudio
    simp [h]

/-- Witness for `c10_not_started` on a freshly created output. -/
theorem c10_witness :
    ndi_output_rawvideo ndi_output_create ⟨0, 0⟩ = (ndi_output_create, []) ∧
    ndi_output_rawaudio ndi_output_create ⟨0, 1024⟩ = (ndi_output_create, []) :=
  c10_not_started ndi_output_create ⟨0, 0⟩ ⟨0, 1024⟩ (by decide)

/-- C7: for a frame dequeued by the delivery thread in the RUNNING state,
the queue loses exactly its front descriptor; a frame with a non-null pixel
buffer is sent to the sink exactly once and its buffer released exactly
once, then the thread sleeps to the absolute deadline `now + frame_duration`;
a filler (null `p_data`) is neither sent nor released but still ends with
the same absolute-deadline sleep, consuming one pacing interval. -/
theorem c7_deliver (o : ndi_output) (now : ℕ) (f : NDIlib_video_frame_v2)
    (rest : List NDIlib_video_frame_v2) (h : o.video_frames = f :: rest) :
    (ndi_videosend_iter o now).1.video_frames = rest ∧
    (∀ b, f.p_data = some b →
      (ndi_videosend_iter o now).2
        = [Event.send_video f, Event.release b,
           Event.sleep_to (now + frame_duration f.frame_rate_N f.frame_rate_D)]) ∧
    (f.p_data = none →
      (ndi_videosend_iter o now).2
        = [Event.sleep_to (now + frame_duration f.frame_rate_N f.frame_rate_D)]) := by
  unfold ndi_videosend_iter
  rw [h]
  refine ⟨rfl, ?_, ?_⟩
  · intro b hb
    simp [hb]
  · intro hb
    simp [hb]

/-- Witness for `c7_deliver`: one real frame then one filler. -/
theorem c7_witness :
    ((ndi_videosend_iter { started_state with video_frames := [sample_frame] } 5).1.video_frames
        = [] ∧
      (∀ b, sample_frame.p_data = some b →
        (ndi_videosend_iter { started_state with video_frames := [sample_frame] } 5).2
          = [Event.send_video sample_frame, Event.release b,
             Event.sleep_to (5 + frame_duration sample_frame.frame_rate_N
                sample_frame.frame_rate_D)]) ∧
      (sample_frame.p_data = none →
        (ndi_videosend_iter { started_state with video_frames := [sample_frame] } 5).2
          = [Event.sleep_to (5 + frame_duration sample_frame.frame_rate_N
              sample_frame.frame_rate_D)])) :=
  c7_deliver { started_state with video_frames := [sample_frame] } 5 sample_frame [] rfl

/-- C9: when creation of the sender handle fails, `start` returns the stored
started flag (false on any entry from CREATED/STOPPED, where `started` is
false), launches no delivery thread, emits no events, and leaves the
instance unstarted with a null sender handle. -/
theorem c9_start_sender_fail (o : ndi_output) (vinfo : obs_video_info)
    (ainfo : obs_audio_info) (begin_capture_ok : Bool)
    (hstart : o.started = false) :
    (ndi_output_start o vinfo ainfo false begin_capture_ok).2.1 = false ∧
    (ndi_output_start o vinfo ainfo false begin_capture_ok).1.started = false ∧
    (ndi_output_start o vinfo ainfo false begin_capture_ok).1.thread_running
        = o.thread_running ∧
    (ndi_output_start o vinfo ainfo false begin_capture_ok).1.ndi_sender = false ∧
    (ndi_output_start o vinfo ainfo false begin_capture_ok).2.2 = [] := by
  unfold ndi_output_start
  rcases vinfo with ⟨w, ht, n, d, fmt⟩
  cases fmt <;> simp [hstart]

/-- `filterMap` distributes over the blocks of a `flatMap`. -/
theorem filterMap_flatMap_blocks {α β γ : Type} (l : List α) (g : α → List β)
    (f : β → Option γ) :
    (l.flatMap g).filterMap f = l.flatMap fun a => (g a).filterMap f := by
  induction l with
  | nil => rfl
  | cons x xs ih => simp [List.flatMap_cons, List.filterMap_append, ih]

theorem alloc_ids_append (l1 l2 : List Event) :
    alloc_ids (l1 ++ l2) = alloc_ids l1 ++ alloc_ids l2 :=
  List.filterMap_append l1 l2 _

theorem release_ids_append (l1 l2 : List Event) :
    release_ids (l1 ++ l2) = release_ids l1 ++ release_ids l2 :=
  List.filterMap_append l1 l2 _

theorem alloc_ids_conv (b : Prop) [Decidable b] :
    alloc_ids (if b then [Event.convert] else []) = [] := by
  split_ifs <;> rfl

theorem release_ids_conv (b : Prop) [Decidable b] :
    release_ids (if b then [Event.convert] else []) = [] := by
  split_ifs <;> rfl

theorem alloc_ids_single_alloc (i s : ℕ) :
    alloc_ids [Event.alloc i s] = [i] := rfl

theorem release_ids_single_alloc (i s : ℕ) :
    release_ids [Event.alloc i s] = [] := rfl

theorem alloc_ids_single_post : alloc_ids [Event.sem_post] = [] := rfl

theorem release_ids_single_post : release_ids [Event.sem_post] = [] := rfl

theorem alloc_ids_replicate_post (n : ℕ) :
    alloc_ids (List.replicate n Event.sem_post) = [] := by
  induction n with
  | zero => rfl
  | succ m ih => simpa [alloc_ids, List.replicate_succ] using ih

theorem release_ids_replicate_post (n : ℕ) :
    release_ids (List.replicate n Event.sem_post) = [] := by
  induction n with
  | zero => rfl
  | succ m ih => simpa [release_ids, List.replicate_succ] using ih

/-- The drift-correction pop loop releases exactly the pixel buffers of the
popped descriptors. -/
theorem release_ids_pop_events (l : List NDIlib_video_frame_v2) :
    release_ids (l.flatMap fun fr => Event.sem_wait ::
        (match fr.p_data with | some b => [Event.release b] | none => []))
      = l.filterMap fun fr => fr.p_data := by
  rw [release_ids, filterMap_flatMap_blocks]
  induction l with
  | nil => rfl
  | cons fr fs ih =>
    rw [List.flatMap_cons, List.filterMap_cons, ih]
    rcases hp : fr.p_data with _ | b <;> simp [hp]

/-- The drift-correction pop loop allocates nothing. -/
theorem alloc_ids_pop_events (l : List NDIlib_video_frame_v2) :
    alloc_ids (l.flatMap fun fr => Event.sem_wait ::
        (match fr.p_data with | some b => [Event.release b] | none => []))
      = [] := by
  rw [alloc_ids, filterMap_flatMap_blocks]
  induction l with
  | nil => rfl
  | cons fr fs ih =>
    rw [List.flatMap_cons, ih]
    rcases hp : fr.p_data with _ | b <;> simp [hp]

/-- The shutdown drain releases exactly the queued pixel buffers. -/
theorem release_ids_flush (q : List NDIlib_video_frame_v2) :
    release_ids (ndi_videosend_flush q) = q.filterMap fun fr => fr.p_data := by
  rw [ndi_videosend_flush, release_ids, filterMap_flatMap_blocks]
  induction q with
  | nil => rfl
  | cons fr fs ih =>
    rw [List.flatMap_cons, List.filterMap_cons, ih]
    rcases hp : fr.p_data with _ | b <;> simp [hp]

/-- The shutdown drain allocates nothing. -/
theorem alloc_ids_flush (q : List NDIlib_video_frame_v2) :
    alloc_ids (ndi_videosend_flush q) = [] := by
  rw [ndi_videosend_flush, alloc_ids, filterMap_flatMap_blocks]
  induction q with
  | nil => rfl
  | cons fr fs ih =>
    rw [List.flatMap_cons, ih]
    rcases hp : fr.p_data with _ | b <;> simp [hp]

/-- The shutdown drain sends nothing to the sink. -/
theorem flush_no_send (q : List NDIlib_video_frame_v2) :
    ∀ e ∈ ndi_videosend_flush q, is_video_send e = false := by
  intro e he
  rw [ndi_videosend_flush] at he
  simp only [List.mem_flatMap] at he
  obtain ⟨fr, _, he⟩ := he
  rcases hp : fr.p_data with _ | b
  · rw [hp] at he
    simp at he
  · rw [hp] at he
    simp only [List.mem_singleton] at he
    rw [he]
    rfl

/-- Fillers hold no buffer: `filterMap p_data` of replicated fillers is
empty. -/
theorem filterMap_p_data_replicate_none (n : ℕ) (fr : NDIlib_video_frame_v2)
    (h : fr.p_data = none) :
    (List.replicate n fr).filterMap (fun f => f.p_data) = [] := by
  induction n with
  | zero => rfl
  | succ m ih => simp [List.replicate_succ, List.filterMap_cons, h, ih]

/-- The admitted descriptor references the freshly allocated copy. -/
theorem admitted_p_data (o : ndi_output) (frame : video_data) :
    (admitted_frame o frame).p_data = some o.next_buf := rfl

theorem alloc_ids_send_pair (fr : NDIlib_video_frame_v2) (b : ℕ) :
    alloc_ids [Event.send_video fr, Event.release b] = [] := rfl

theorem release_ids_send_pair (fr : NDIlib_video_frame_v2) (b : ℕ) :
    release_ids [Event.send_video fr, Event.release b] = [b] := rfl

theorem alloc_ids_sleep (t : ℕ) : alloc_ids [Event.sleep_to t] = [] := rfl

theorem release_ids_sleep (t : ℕ) : release_ids [Event.sleep_to t] = [] := rfl

theorem alloc_ids_audio (i sz tc : ℕ) :
    alloc_ids [Event.alloc i sz, Event.send_audio tc, Event.release i]
      = [i] := rfl

theorem release_ids_audio (i sz tc : ℕ) :
    release_ids [Event.alloc i sz, Event.send_audio tc, Event.release i]
      = [i] := rfl

/-- Appending one fresh identifier preserves distinctness and the bound. -/
theorem nodup_snoc_fresh (A : List ℕ) (nb : ℕ) (hnd : A.Nodup)
    (hlt : ∀ i ∈ A, i < nb) :
    (A ++ [nb]).Nodup ∧ ∀ i ∈ A ++ [nb], i < nb + 1 := by
  constructor
  · rw [List.nodup_append]
    refine ⟨hnd, List.nodup_singleton _, fun a ha hb => ?_⟩
    simp only [List.mem_singleton] at hb
    exact absurd (hb ▸ hlt a ha) (lt_irrefl nb)
  · intro i hi
    rcases List.mem_append.mp hi with hh | hh
    · exact Nat.lt_succ_of_lt (hlt i hh)
    · simp only [List.mem_singleton] at hh
      omega

/-- Multiset bookkeeping: allocate and enqueue the fresh buffer `nb` while
releasing the buffers `Q1` off the front of the queue. -/
theorem coe_append_snoc_eq (A R Q1 Q2 : List ℕ) (nb : ℕ)
    (hmul : (A : Multiset ℕ) = (R : Multiset ℕ)
      + ((Q1 ++ Q2 : List ℕ) : Multiset ℕ)) :
    ((A ++ [nb] : List ℕ) : Multiset ℕ)
      = ((R ++ Q1 : List ℕ) : Multiset ℕ)
        + ((Q2 ++ [nb] : List ℕ) : Multiset ℕ) := by
  simp only [← Multiset.coe_add] at hmul ⊢
  rw [hmul]
  abel

/-- Multiset bookkeeping for the pop branch: the released identifiers grow
by the buffers of the popped prefix, the queue keeps the rest plus the fresh
buffer. -/
theorem queue_split_mul (A R : List ℕ) (q : List NDIlib_video_frame_v2)
    (K nb : ℕ)
    (hmul : (A : Multiset ℕ) = (R : Multiset ℕ)
      + ((q.filterMap fun fr => fr.p_data : List ℕ) : Multiset ℕ)) :
    ((A ++ [nb] : List ℕ) : Multiset ℕ)
      = ((R ++ (q.take K).filterMap (fun fr => fr.p_data) : List ℕ) : Multiset ℕ)
        + (((q.drop K).filterMap (fun fr => fr.p_data) ++ [nb] : List ℕ) : Multiset ℕ) := by
  apply coe_append_snoc_eq
  rw [← List.filterMap_append, List.take_append_drop]
  exact hmul

/-- Multiset bookkeeping for a pure push of the fresh buffer `nb`. -/
theorem coe_snoc_eq (A R Q : List ℕ) (nb : ℕ)
    (hmul : (A : Multiset ℕ) = (R : Multiset ℕ) + (Q : Multiset ℕ)) :
    ((A ++ [nb] : List ℕ) : Multiset ℕ)
      = (R : Multiset ℕ) + ((Q ++ [nb] : List ℕ) : Multiset ℕ) := by
  simp only [← Multiset.coe_add] at hmul ⊢
  rw [hmul]
  abel

/-- Multiset bookkeeping for an allocation released within the same call. -/
theorem coe_snoc_both (A R Q : List ℕ) (nb : ℕ)
    (hmul : (A : Multiset ℕ) = (R : Multiset ℕ) + (Q : Multiset ℕ)) :
    ((A ++ [nb] : List ℕ) : Multiset ℕ)
      = ((R ++ [nb] : List ℕ) : Multiset ℕ) + (Q : Multiset ℕ) := by
  simp only [← Multiset.coe_add] at hmul ⊢
  rw [hmul]
  abel

/-- Multiset bookkeeping for releasing the front buffer of the queue. -/
theorem coe_release_front (A R Q : List ℕ) (b : ℕ)
    (hmul : (A : Multiset ℕ) = (R : Multiset ℕ)
      + ((b :: Q : List ℕ) : Multiset ℕ)) :
    (A : Multiset ℕ) = ((R ++ [b] : List ℕ) : Multiset ℕ) + (Q : Multiset ℕ) := by
  rw [← List.singleton_append] at hmul
  simp only [← Multiset.coe_add] at hmul ⊢
  rw [hmul]
  abel

/-- Raw-video calls preserve the buffer accounting. -/
theorem rawvideo_BufInv (o : ndi_output) (evs : List Event)
    (frame : video_data) (h : BufInv o evs) :
    BufInv (ndi_output_rawvideo o frame).1
      (evs ++ (ndi_output_rawvideo o frame).2) := by
  obtain ⟨hmul, hnd, hlt⟩ := h
  simp only [ndi_output_rawvideo]
  by_cases h1 : o.started = false
  · rw [if_pos h1]
    simpa using (show BufInv o evs from ⟨hmul, hnd, hlt⟩)
  · rw [if_neg h1]
    by_cases h2 : MAX_BUFFERING_FRAMES ≤ o.video_frames.length
    · rw [if_pos h2]
      simpa using (show BufInv o evs from ⟨hmul, hnd, hlt⟩)
    · rw [if_neg h2]
      by_cases h3 : required_delay_frames o frame
          - (o.video_frames.length : ℤ) < 0
      · rw [if_pos h3]
        refine ⟨?_, ?_, ?_⟩ <;>
          simp only [alloc_ids_append, release_ids_append,
            alloc_ids_conv, release_ids_conv, alloc_ids_single_alloc,
            release_ids_single_alloc, alloc_ids_single_post,
            release_ids_single_post, alloc_ids_pop_events,
            release_ids_pop_events, queue_bufs, List.filterMap_append,
            List.filterMap_cons, List.filterMap_nil, admitted_p_data,
            List.append_nil, List.nil_append]
        · exact queue_split_mul _ _ _ _ _ hmul
        · exact (nodup_snoc_fresh _ _ hnd hlt).1
        · exact (nodup_snoc_fresh _ _ hnd hlt).2
      · rw [if_neg h3]
        by_cases h4 : 0 < required_delay_frames o frame
            - (o.video_frames.length : ℤ)
        · rw [if_pos h4]
          refine ⟨?_, ?_, ?_⟩ <;>
            simp only [alloc_ids_append, release_ids_append,
              alloc_ids_conv, release_ids_conv, alloc_ids_single_alloc,
              release_ids_single_alloc, alloc_ids_single_post,
              release_ids_single_post, alloc_ids_replicate_post,
              release_ids_replicate_post, queue_bufs, List.filterMap_append,
              List.filterMap_cons, List.filterMap_nil, admitted_p_data,
              filterMap_p_data_replicate_none,
              List.append_nil, List.nil_append]
          · exact coe_snoc_eq _ _ _ _ hmul
          · exact (nodup_snoc_fresh _ _ hnd hlt).1
          · exact (nodup_snoc_fresh _ _ hnd hlt).2
        · rw [if_neg h4]
          refine ⟨?_, ?_, ?_⟩ <;>
            simp only [alloc_ids_append, release_ids_append,
              alloc_ids_conv, release_ids_conv, alloc_ids_single_alloc,
              release_ids_single_alloc, alloc_ids_single_post,
              release_ids_single_post, queue_bufs, List.filterMap_append,
              List.filterMap_cons, List.filterMap_nil, admitted_p_data,
              List.append_nil, List.nil_append]
          · exact coe_snoc_eq _ _ _ _ hmul
          · exact (nodup_snoc_fresh _ _ hnd hlt).1
          · exact (nodup_snoc_fresh _ _ hnd hlt).2

/-- Raw-audio calls preserve the buffer accounting: the sample buffer is
allocated and released within the call. -/
theorem rawaudio_BufInv (o : ndi_output) (evs : List Event)
    (frame : audio_data) (h : BufInv o evs) :
    BufInv (ndi_output_rawaudio o frame).1
      (evs ++ (ndi_output_rawaudio o frame).2) := by
  obtain ⟨hmul, hnd, hlt⟩ := h
  simp only [ndi_output_rawaudio]
  by_cases h1 : o.started = false
  · rw [if_pos h1]
    simpa using (show BufInv o evs from ⟨hmul, hnd, hlt⟩)
  · rw [if_neg h1]
    refine ⟨?_, ?_, ?_⟩ <;>
      simp only [alloc_ids_append, release_ids_append, alloc_ids_audio,
        release_ids_audio, queue_bufs, List.append_nil, List.nil_append]
    · exact coe_snoc_both _ _ _ _ hmul
    · exact (nodup_snoc_fresh _ _ hnd hlt).1
    · exact (nodup_snoc_fresh _ _ hnd hlt).2

/-- Delivery-thread iterations preserve the buffer accounting. -/
theorem deliver_BufInv (o : ndi_output) (evs : List Event) (now : ℕ)
    (h : BufInv o evs) :
    BufInv (ndi_videosend_iter o now).1
      (evs ++ (ndi_videosend_iter o now).2) := by
  obtain ⟨hmul, hnd, hlt⟩ := h
  simp only [ndi_videosend_iter]
  rcases hq : o.video_frames with _ | ⟨fr, rest⟩
  · have hmul0 : (alloc_ids evs : Multiset ℕ)
        = (release_ids evs : Multiset ℕ) + (queue_bufs o : Multiset ℕ) := hmul
    simpa using (show BufInv o evs from ⟨hmul0, hnd, hlt⟩)
  · have hqb : (queue_bufs o : List ℕ)
        = (fr :: rest).filterMap fun f => f.p_data := by
      rw [queue_bufs, hq]
    rcases hp : fr.p_data with _ | b
    · refine ⟨?_, ?_, ?_⟩ <;>
        simp only [hp, alloc_ids_append, release_ids_append,
          alloc_ids_sleep, release_ids_sleep, queue_bufs,
          List.append_nil, List.nil_append]
      · rw [hqb, List.filterMap_cons, hp] at hmul
        exact hmul
      · exact hnd
      · intro i hi
        exact hlt i hi
    · refine ⟨?_, ?_, ?_⟩ <;>
        simp only [hp, alloc_ids_append, release_ids_append,
          alloc_ids_send_pair, release_ids_send_pair,
          alloc_ids_sleep, release_ids_sleep, queue_bufs,
          List.append_nil, List.nil_append]
      · rw [hqb, List.filterMap_cons, hp] at hmul
        exact coe_release_front _ _ _ _ hmul
      · exact hnd
      · intro i hi
        exact hlt i hi

/-- Witness for `c9_start_sender_fail` on a fresh instance. -/
theorem c9_witness :
    (ndi_output_start ndi_output_create ⟨1920, 1080, 60, 1, video_format.NV12⟩
        ⟨48000, 2⟩ false true).2.1 = false ∧
    (ndi_output_start ndi_output_create ⟨1920, 1080, 60, 1, video_format.NV12⟩
        ⟨48000, 2⟩ false true).1.started = false ∧
    (ndi_output_start ndi_output_create ⟨1920, 1080, 60, 1, video_format.NV12⟩
        ⟨48000, 2⟩ false true).1.thread_running = ndi_output_create.thread_running ∧
    (ndi_output_start ndi_output_create ⟨1920, 1080, 60, 1, video_format.NV12⟩
        ⟨48000, 2⟩ false true).1.ndi_sender = false ∧
    (ndi_output_start ndi_output_create ⟨1920, 1080, 60, 1, video_format.NV12⟩
        ⟨48000, 2⟩ false true).2.2 = [] :=
  c9_start_sender_fail ndi_output_create ⟨1920, 1080, 60, 1, video_format.NV12⟩
    ⟨48000, 2⟩ true (by decide)

/-- Every host operation preserves the buffer accounting. -/
theorem run_op_BufInv (o : ndi_output) (evs : List Event) (op : Op)
    (h : BufInv o evs) :
    BufInv (run_op o op).1 (evs ++ (run_op o op).2) := by
  cases op with
  | raw_video f => exact rawvideo_BufInv o evs f h
  | raw_audio f => exact rawaudio_BufInv o evs f h
  | deliver now => exact deliver_BufInv o evs now h

/-- Any sequence of host operations preserves the buffer accounting. -/
theorem run_ops_BufInv (ops : List Op) :
    ∀ (o : ndi_output) (evs : List Event), BufInv o evs →
      BufInv (run_ops o ops).1 (evs ++ (run_ops o ops).2) := by
  induction ops with
  | nil =>
    intro o evs h
    simpa [run_ops] using h
  | cons op rest ih =>
    intro o evs h
    simp only [run_ops]
    rw [← List.append_assoc]
    exact ih _ _ (run_op_BufInv o evs op h)

/-- C8: starting from an empty queue, after any sequence of raw-video calls
(with their admission drops, drift-correction pops and filler insertions),
raw-audio calls and delivery-thread iterations, `stop` leaves the queue
empty with the delivery thread exited, the shutdown drain sends nothing to
the sink, and over the whole history every allocated buffer has been
released exactly once: the released identifiers are exactly the allocated
ones (as multisets) and no identifier is released twice. -/
theorem c8_shutdown (o0 : ndi_output) (ops : List Op)
    (h : o0.video_frames = []) :
    (ndi_output_stop (run_ops o0 ops).1).1.video_frames = [] ∧
    (ndi_output_stop (run_ops o0 ops).1).1.thread_running = false ∧
    ((release_ids ((run_ops o0 ops).2
        ++ (ndi_output_stop (run_ops o0 ops).1).2) : List ℕ) : Multiset ℕ)
      = ((alloc_ids ((run_ops o0 ops).2
        ++ (ndi_output_stop (run_ops o0 ops).1).2) : List ℕ) : Multiset ℕ) ∧
    (release_ids ((run_ops o0 ops).2
        ++ (ndi_output_stop (run_ops o0 ops).1).2)).Nodup ∧
    ∀ e ∈ (ndi_output_stop (run_ops o0 ops).1).2, is_video_send e = false := by
  have h0 : BufInv o0 [] := by
    refine ⟨?_, List.nodup_nil, ?_⟩
    · simp [alloc_ids, release_ids, queue_bufs, h]
    · intro i hi
      simp [alloc_ids] at hi
  have hinv := run_ops_BufInv ops o0 [] h0
  rw [List.nil_append] at hinv
  obtain ⟨hmul, hnd, _⟩ := hinv
  have hstop2 : (ndi_output_stop (run_ops o0 ops).1).2
      = Event.sem_post :: ndi_videosend_flush (run_ops o0 ops).1.video_frames := rfl
  have hrel : release_ids ((run_ops o0 ops).2
      ++ (ndi_output_stop (run_ops o0 ops).1).2)
      = release_ids (run_ops o0 ops).2 ++ queue_bufs (run_ops o0 ops).1 := by
    rw [release_ids_append, hstop2]
    have hcons : release_ids (Event.sem_post
        :: ndi_videosend_flush (run_ops o0 ops).1.video_frames)
        = release_ids (ndi_videosend_flush (run_ops o0 ops).1.video_frames) := rfl
    rw [hcons, release_ids_flush, queue_bufs]
  have hall : alloc_ids ((run_ops o0 ops).2
      ++ (ndi_output_stop (run_ops o0 ops).1).2)
      = alloc_ids (run_ops o0 ops).2 := by
    rw [alloc_ids_append, hstop2]
    have hcons : alloc_ids (Event.sem_post
        :: ndi_videosend_flush (run_ops o0 ops).1.video_frames)
        = alloc_ids (ndi_videosend_flush (run_ops o0 ops).1.video_frames) := rfl
    rw [hcons, alloc_ids_flush, List.append_nil]
  refine ⟨rfl, rfl, ?_, ?_, ?_⟩
  · rw [hrel, hall]
    simp only [← Multiset.coe_add] at hmul ⊢
    rw [hmul]
  · rw [hrel]
    have hcoe : (((release_ids (run_ops o0 ops).2
        ++ queue_bufs (run_ops o0 ops).1 : List ℕ)) : Multiset ℕ)
        = ((alloc_ids (run_ops o0 ops).2 : List ℕ) : Multiset ℕ) := by
      simp only [← Multiset.coe_add] at hmul ⊢
      rw [hmul]
    rw [← Multiset.coe_nodup, hcoe, Multiset.coe_nodup]
    exact hnd
  · intro e he
    rw [hstop2] at he
    rcases List.mem_cons.mp he with hh | hh
    · rw [hh]
      rfl
    · exact flush_no_send _ e hh

/-- Witness for `c8_shutdown`: a concrete audio/video/deliver script. -/
theorem c8_witness :
    (ndi_output_stop (run_ops started_state c8_ops).1).1.video_frames = [] :=
  (c8_shutdown started_state c8_ops rfl).1

end ObsNdi

